/-
Verification of the m3u8 stream-downloader bot (src/m3u8_telegram_bot.py)
against its natural-language specification.

Shallow embedding notes:
* Byte strings are `List Nat` (one `Nat` per byte value).
* The filesystem is an association list `List (String × Bytes)` from path to
  contents; `fsWrite` models `open(p, 'wb').write`, `fsRemove` models
  `os.remove`, `fsExists` models `os.path.exists`.
* Status texts sent through Telegram are abstracted to structured tags
  (`StatusTag`) carrying the data the texts interpolate; the claims under
  verification concern which calls happen and with which computed values,
  not the literal emoji strings.
* Python exceptions are modelled with `Except`/`Option` error values; a
  `try/except` block becomes a `match` on the error component.
* `float` division `a / b` on nonnegative integers is modelled as `Rat`
  division, with the `ZeroDivisionError` on `b = 0` made explicit.
-/
import Mathlib

namespace M3U8Bot

/-- A byte string: one `Nat` per byte. -/
abbrev Bytes := List Nat

/-- The filesystem: path ↦ contents. -/
abbrev FS := List (String × Bytes)

/-- `open(p, 'wb'); write(b)`: (over)write path `p` with contents `b`. -/
def fsWrite (fs : FS) (p : String) (b : Bytes) : FS :=
  (p, b) :: fs.filter (fun e => e.1 ≠ p)

/-- `os.remove(p)`: drop path `p`. -/
def fsRemove (fs : FS) (p : String) : FS :=
  fs.filter (fun e => e.1 ≠ p)

/-- `os.path.exists(p)`. -/
def fsExists (fs : FS) (p : String) : Bool :=
  fs.any (fun e => e.1 = p)

/-- `open(p, 'rb').read()` — contents of path `p` if present. -/
def fsGet (fs : FS) (p : String) : Option Bytes :=
  (fs.find? (fun e => e.1 = p)).map (fun e => e.2)

/-- Source lines 39-46: the `QUALITY_OPTIONS` list of (key, display name). -/
def QUALITY_OPTIONS : List (String × String) :=
  [("auto", "🔄 Best Quality (Recommended)"),
   ("1080p", "🎥 Full HD (1080p)"),
   ("720p", "📺 HD (720p)"),
   ("480p", "📱 SD (480p)"),
   ("360p", "💻 Low (360p)"),
   ("audio", "🎵 Audio Only")]

/-- `dict(QUALITY_OPTIONS)[quality]`: `none` models the `KeyError` case. -/
def qualityName (q : String) : Option String :=
  (QUALITY_OPTIONS.find? (fun e => e.1 = q)).map (fun e => e.2)

/-! ## Progress hook (source lines 95-126) -/

/-- A yt-dlp progress dict as the hook reads it.  `timestamp` is the event's
arrival time in seconds; the hook itself never reads it (it is carried only so
that temporal statements about event streams can be posed). -/
structure PEvent where
  status : String
  downloaded_bytes : Nat
  total_bytes : Option Nat
  speed : Option Nat
  eta : Option Nat
  timestamp : Nat
deriving Repr, DecidableEq

/-- Exceptions the hook body can raise: `ZeroDivisionError` from
`downloaded_bytes / total_bytes` with `total_bytes == 0`, and `KeyError` from
`dict(QUALITY_OPTIONS)[quality]`. -/
inductive HookErr where
  | divByZero
  | keyError
deriving Repr, DecidableEq

/-- The data interpolated into the progress text (lines 98-118), with the
literal f-string abstracted to its computed fields. -/
inductive Rendered where
  /-- Lines 99-111: `'total_bytes' in d` branch; percent is
  `downloaded_bytes / total_bytes * 100`. -/
  | percentMode (percent : Rat) (speed : Nat) (eta : Option Nat) (qname : String)
  /-- Lines 112-118: fallback branch; `mb = downloaded_bytes / 1024 / 1024`. -/
  | mbMode (mb : Rat) (qname : String)
deriving Repr, DecidableEq

/-- Lines 98-118 of the hook body: build the progress text, or raise.
Order of raises follows the source: in the percent branch the division
(line 99) precedes the quality lookup (line 108). -/
def renderProgress (quality : String) (e : PEvent) : Except HookErr Rendered :=
  match e.total_bytes with
  | some t =>
      if t = 0 then .error .divByZero
      else
        match qualityName quality with
        | none => .error .keyError
        | some nm =>
            .ok (.percentMode ((e.downloaded_bytes : Rat) / (t : Rat) * 100)
                  (e.speed.getD 0) e.eta nm)
  | none =>
      match qualityName quality with
      | none => .error .keyError
      | some nm =>
          .ok (.mbMode ((e.downloaded_bytes : Rat) / 1024 / 1024) nm)

/-- What one call of `progress_hook` does. -/
inductive HookOutcome where
  /-- `d['status'] != 'downloading'`: the hook body is skipped. -/
  | noAction
  /-- `context.job_queue.run_once(..., delay)` was called with the rendered
  text; the source passes delay `0` (line 122). -/
  | scheduled (delay : Nat) (r : Rendered)
  /-- The `except Exception` arm (lines 124-125): the error is logged and the
  hook returns normally. -/
  | loggedError (err : HookErr)
deriving Repr, DecidableEq

/-- Source lines 95-125: `progress_hook(d)`.  Every exception raised while
rendering or scheduling is caught by the inner `try/except` and only logged. -/
def progress_hook (quality : String) (e : PEvent) : HookOutcome :=
  if e.status = "downloading" then
    match renderProgress quality e with
    | .ok r => .scheduled 0 r
    | .error err => .loggedError err
  else .noAction

/-- The hook applied to a stream of progress events (yt-dlp fires it once per
event); one outcome per event, in order. -/
def hookRuns (quality : String) (es : List PEvent) : List HookOutcome :=
  es.map (progress_hook quality)

/-- Whether a hook outcome is a scheduled Notifier status-update call. -/
def isScheduled : HookOutcome → Bool
  | .scheduled _ _ => true
  | _ => false

/-! ## update_status (source lines 234-243) -/

/-- `message.edit_text(text)`: succeeds or raises, per the supplied outcome. -/
def tryEdit (ok : Bool) : Except Unit Unit :=
  if ok then .ok () else .error ()

/-- The `for _ in range(3)` retry loop of `update_status`.  `outcomes` feeds
each successive `edit_text` attempt (`true` = the edit succeeds).  Returns
(edit attempts made, seconds slept in `asyncio.sleep(1)` calls, whether some
attempt succeeded).  The loop catches every exception, so the function always
returns normally — a failed update is never re-raised. -/
def updateStatusLoop : Nat → List Bool → Nat × Nat × Bool
  | 0, _ => (0, 0, false)
  | n + 1, outcomes =>
      match tryEdit (outcomes.headD true) with
      | .ok _ => (1, 0, true)
      | .error _ =>
          let r := updateStatusLoop n outcomes.tail
          (r.1 + 1, r.2.1 + 1, r.2.2)

/-- Source lines 234-243: `update_status` with its 3-attempt, 1-second-backoff
retry policy. -/
def update_status (outcomes : List Bool) : Nat × Nat × Bool :=
  updateStatusLoop 3 outcomes

/-! ## Splitter arithmetic (source lines 189-228) -/

/-- Line 196: `total_parts = -(-file_size // self.max_bytes)` — Python's
ceiling-division idiom, with `//` the floor division `Int.fdiv`. -/
def total_parts (fileSize maxBytes : Nat) : Nat :=
  (-((-(fileSize : Int)).fdiv (maxBytes : Int))).toNat

/-- Lines 199-203, reading side of the loop: `for part in range(n):
content = f.read(P); if not content: break; ...` — the successive chunks the
loop reads.  `f.read(P)` on a file cursor is `take P` of the remaining bytes,
advancing the cursor (`drop P`). -/
def readParts (P : Nat) : Nat → Bytes → List Bytes
  | 0, _ => []
  | n + 1, rest =>
      let content := rest.take P
      if content.isEmpty then []
      else content :: readParts P n (rest.drop P)

/-- The ordered part contents `split_and_send` produces for a file with the
given bytes: the read loop run `total_parts` times. -/
def splitParts (P : Nat) (data : Bytes) : List Bytes :=
  readParts P (total_parts data.length P) data

/-! ## Path helpers (os.path) -/

/-- `os.path.basename`: the component after the last `/`. -/
def basename (p : String) : String :=
  (p.splitOn "/").getLastD p

/-- `os.path.splitext` for ordinary filenames (nonempty stem); splits off the
part after the last dot.  Leading-dot-only corner cases (e.g. `.bashrc`) are
not exercised by the embedding. -/
def splitext (s : String) : String × String :=
  let parts := s.splitOn "."
  if parts.length ≤ 1 then (s, "")
  else
    let stem := String.intercalate "." parts.dropLast
    if stem = "" then (s, "") else (stem, "." ++ parts.getLastD "")

/-! ## The download pipeline (source lines 48-232) -/

/-- Exceptions raised inside `StreamDownloader.download` / `split_and_send`. -/
inductive DlError where
  /-- line 143: `Exception("Download failed - file not found")`. -/
  | fileNotFound
  /-- line 147: `Exception("Downloaded file is empty")`. -/
  | emptyFile
  /-- a `chat.send_document` call raised (network/Telegram error). -/
  | sendFailed
  /-- filesystem error opening the artifact inside `split_and_send`. -/
  | ioError
deriving Repr, DecidableEq

/-- The status/notification texts, abstracted to tags carrying their
interpolated data. -/
inductive StatusTag where
  /-- lines 73-78: initial "Starting download..." message. -/
  | starting
  /-- line 130: "🔍 Analyzing stream...". -/
  | analyzing
  /-- lines 134-138: "📥 Downloading...". -/
  | downloadingInfo
  /-- lines 150-153: "⚠️ File is large. Splitting...". -/
  | splittingNotice
  /-- line 156: "📤 Uploading to Telegram...". -/
  | uploading
  /-- lines 210-214: "📤 Sending part i/n". -/
  | sendingPart (i tot : Nat)
  /-- line 174: "✅ Download completed!". -/
  | completedMsg
  /-- lines 179-184: "❌ Download failed! Error: ...". -/
  | failedMsg (e : DlError)
  /-- lines 62-64: "⚠️ You already have an active download.". -/
  | busyNotice
  /-- lines 350-354: "❌ Download cancelled". -/
  | cancelledMsg
deriving Repr, DecidableEq

/-- Observable calls the pipeline makes, in program order.  A
`sendDocument` records the call and whether it succeeded (`ok = false`
models the call raising). -/
inductive Action where
  | sendMessage (tag : StatusTag)
  | statusUpdate (tag : StatusTag)
  | sendDocument (filename : String) (content : Bytes) (ok : Bool)
  | sleepSecond
  | editMessage (tag : StatusTag)
deriving Repr, DecidableEq

/-- Whether an action is a `send_document` call (successful or not). -/
def isSendDoc : Action → Bool
  | .sendDocument _ _ _ => true
  | _ => false

/-- State threaded through the `split_and_send` loop. -/
structure SplitState where
  fs : FS
  actions : List Action
  sends : List Bool
deriving Repr, DecidableEq

/-- Lines 199-228: the body of `for part in range(total_parts)`.  Per
iteration: read a chunk (`take P` / advance the cursor with `drop P`), break
on empty read, write the part file, status-update, `send_document`, delete
the part file, `asyncio.sleep(1)`.  A failed send raises: the loop stops,
the part file is NOT deleted, and the error propagates (`some .sendFailed`).
`update_status` never raises (see `update_status`), so edit outcomes cannot
alter control flow and are not threaded here. -/
def splitSendLoop (P : Nat) (tempDir name ext : String) (tot : Nat) :
    Nat → Nat → Bytes → SplitState → SplitState × Option DlError
  | 0, _, _, st => (st, none)
  | fuel + 1, idx, rest, st =>
      let content := rest.take P
      if content.isEmpty then (st, none)
      else
        let partName := name ++ "_part" ++ toString (idx + 1) ++ "of" ++
          toString tot ++ ext
        let partPath := tempDir ++ "/" ++ partName
        let fs1 := fsWrite st.fs partPath content
        let ok := st.sends.headD true
        let acts1 := st.actions ++
          [Action.statusUpdate (.sendingPart (idx + 1) tot),
           Action.sendDocument partName content ok]
        if ok then
          splitSendLoop P tempDir name ext tot fuel (idx + 1) (rest.drop P)
            ⟨fsRemove fs1 partPath, acts1 ++ [Action.sleepSecond], st.sends.tail⟩
        else
          (⟨fs1, acts1, st.sends.tail⟩, some .sendFailed)

/-- Source lines 189-232: `split_and_send(file_path, ...)`.  Reads the
artifact, computes `total_parts`, runs the part loop.  The `except` clause
(lines 230-232) only logs and re-raises, so errors propagate unchanged. -/
def split_and_send (maxBytes : Nat) (tempDir filePath : String) (fs : FS)
    (sends : List Bool) : SplitState × Option DlError :=
  match fsGet fs filePath with
  | none => (⟨fs, [], sends⟩, some .ioError)
  | some data =>
      let tot := total_parts data.length maxBytes
      let ne := splitext (basename filePath)
      splitSendLoop maxBytes tempDir ne.1 ne.2 tot tot 0 data ⟨fs, [], sends⟩

/-- Inputs of one `StreamDownloader.download` run that are decided by the
outside world (the update object, yt-dlp, and the network). -/
structure DlArgs where
  userId : Nat
  quality : String
  /-- whether `update.callback_query` is set (affects the initial message,
  lines 71-78). -/
  fromCallback : Bool
  /-- contents of `file_path` after `ydl.download([url])` returns; `none`
  models yt-dlp not creating the file. -/
  fetched : Option Bytes
  /-- outcome of each successive `chat.send_document` call. -/
  sends : List Bool
deriving Repr, DecidableEq

/-- Terminal result of one `download` call. -/
inductive Outcome where
  /-- early return, lines 61-65: the user already had an active download. -/
  | busy
  | completed
  | failed (e : DlError)
deriving Repr, DecidableEq

/-- Result of one `download` call: registry (`self.downloads` keys),
filesystem, observable calls, and how the call ended. -/
structure DlResult where
  downloads : List Nat
  fs : FS
  actions : List Action
  outcome : Outcome
deriving Repr, DecidableEq

/-- Lines 71-138: the messages sent before any bytes arrive — the initial
"Starting download..." message when the entry was not a callback (lines
71-78), then the "Analyzing stream..." and "Downloading..." status updates
(lines 130, 134-138). -/
def preludeActions (args : DlArgs) : List Action :=
  (if args.fromCallback then [] else [Action.sendMessage .starting]) ++
  [Action.statusUpdate .analyzing, Action.statusUpdate .downloadingInfo]

/-- Line 140: `ydl.download([url])` — the filesystem after yt-dlp ran:
`args.fetched` (if any) written at `filePath`. -/
def fetchedFS (filePath : String) (args : DlArgs) (fs : FS) : FS :=
  match args.fetched with
  | some b => fsWrite fs filePath b
  | none => fs

/-- Lines 149-170: the size check and transfer.  If `size > max_bytes`,
notify and delegate to `split_and_send`; otherwise notify and make the
single whole-artifact `send_document` call (a raise is `some .sendFailed`). -/
def sendPhase (maxBytes : Nat) (tempDir filePath : String) (args : DlArgs)
    (fs1 : FS) (data : Bytes) : FS × List Action × Option DlError :=
  if maxBytes < data.length then
    let r := split_and_send maxBytes tempDir filePath fs1 args.sends
    (r.1.fs, Action.statusUpdate .splittingNotice :: r.1.actions, r.2)
  else
    let ok := args.sends.headD true
    (fs1, [Action.statusUpdate .uploading,
      Action.sendDocument (basename filePath) data ok],
     if ok then none else some .sendFailed)

/-- Lines 172-174, run only when the transfer phase `b` did not raise: delete
the artifact if it still exists and send the final "Download completed!"
status; a raise in `b` propagates past lines 172-174 unchanged. -/
def finishPhase (filePath : String) (acts1 : List Action)
    (b : FS × List Action × Option DlError) :
    FS × List Action × Option DlError :=
  match b.2.2 with
  | some e => (b.1, acts1 ++ b.2.1, some e)
  | none =>
      let fs2 := if fsExists b.1 filePath then fsRemove b.1 filePath else b.1
      (fs2, acts1 ++ b.2.1 ++ [Action.statusUpdate .completedMsg], none)

/-- Lines 69-174: the `try` block of `download` after admission.  Returns the
filesystem, the actions so far, and the raised exception if any.  yt-dlp's
`extract_info`/`prepare_filename` are external and modelled as supplying
`filePath`. -/
def downloadBody (maxBytes : Nat) (tempDir filePath : String) (args : DlArgs)
    (fs : FS) : FS × List Action × Option DlError :=
  let acts1 := preludeActions args
  let fs1 := fetchedFS filePath args fs
  match fsGet fs1 filePath with
  | none => (fs1, acts1, some .fileNotFound)
  | some data =>
      if data.length = 0 then (fs1, acts1, some .emptyFile)
      else finishPhase filePath acts1
        (sendPhase maxBytes tempDir filePath args fs1 data)

/-- Source lines 55-187: `StreamDownloader.download`.  Admission check on
`self.downloads` (lines 61-67), the `try` body, the `except` clause sending
one failure status (lines 176-184), and the `finally` clause releasing the
registry entry (lines 185-187), which runs on every path. -/
def download (maxBytes : Nat) (tempDir filePath : String) (args : DlArgs)
    (downloads : List Nat) (fs : FS) : DlResult :=
  if downloads.contains args.userId then
    { downloads := downloads, fs := fs,
      actions := [Action.sendMessage .busyNotice], outcome := .busy }
  else
    let dls := args.userId :: downloads
    let r := downloadBody maxBytes tempDir filePath args fs
    let fin : List Action × Outcome := match r.2.2 with
      | none => (r.2.1, Outcome.completed)
      | some e => (r.2.1 ++ [Action.statusUpdate (.failedMsg e)],
                   Outcome.failed e)
    let dls1 := if dls.contains args.userId then
      dls.filter (fun u => u ≠ args.userId) else dls
    { downloads := dls1, fs := r.1, actions := fin.1, outcome := fin.2 }

/-! ## The cancel callback (source lines 339-355) -/

/-- The bot's mutable state relevant to cancellation: the pending
URL-selection map (`self.pending_downloads`) and the active-download
registry (`self.downloader.downloads` keys). -/
structure BotState where
  pending_downloads : List (Nat × String)
  downloads : List Nat
deriving Repr, DecidableEq

/-- Source lines 347-355: the `query.data == "cancel"` branch of
`handle_callback`.  It deletes the user's entry from `pending_downloads`
(if present) and edits the message to "Download cancelled".  It never
touches `self.downloader.downloads` nor any running `download` task. -/
def handle_callback_cancel (st : BotState) (userId : Nat) :
    BotState × List Action :=
  let pending1 := if st.pending_downloads.any (fun e => e.1 = userId) then
    st.pending_downloads.filter (fun e => e.1 ≠ userId)
  else st.pending_downloads
  (⟨pending1, st.downloads⟩, [Action.editMessage .cancelledMsg])

/-! ## Helper lemmas -/

/-- Python's `-(-S // P)` with `//` floor division is the ceiling division
`(S + P - 1) / P`. -/
theorem total_parts_eq (S P : Nat) (hP : 0 < P) :
    total_parts S P = (S + P - 1) / P := by
  unfold total_parts
  have hfd : (-(S : Int)).fdiv (P : Int) = (-(S : Int)) / (P : Int) :=
    Int.fdiv_eq_ediv _ (by positivity)
  rw [hfd]
  set q := (S + P - 1) / P with hq
  have hdm := Nat.div_add_mod (S + P - 1) P
  have hmod := Nat.mod_lt (S + P - 1) hP
  rw [← hq] at hdm
  have h1 : S ≤ P * q := by omega
  have h2 : P * q < S + P := by omega
  have hb : (0 : Int) < (P : Int) := by exact_mod_cast hP
  have key := (Int.ediv_emod_unique (a := -(S : Int)) (b := (P : Int))
      (q := -(q : Int)) (r := (P : Int) * (q : Int) - (S : Int)) hb).mpr
    ⟨by ring, by exact Int.sub_nonneg.mpr (by exact_mod_cast h1),
     by have hc : ((P * q : Nat) : Int) < (S : Int) + (P : Int) := by exact_mod_cast h2
        push_cast at hc
        omega⟩
  rw [key.1]
  simp

theorem fsGet_eq_none (fs : FS) (p : String)
    (h : fsExists fs p = false) : fsGet fs p = none := by
  induction fs with
  | nil => rfl
  | cons e t ih =>
      simp only [fsExists, List.any_cons, Bool.or_eq_false_iff] at h
      simp only [fsGet, List.find?]
      rw [h.1]
      exact ih (by simpa [fsExists] using h.2)

theorem fsExists_of_filter (fs : FS) (pred : String × Bytes → Bool) (p : String)
    (h : fsExists (fs.filter pred) p = true) : fsExists fs p = true := by
  simp only [fsExists, List.any_eq_true, List.mem_filter] at h ⊢
  obtain ⟨e, ⟨he, _⟩, hp⟩ := h
  exact ⟨e, he, hp⟩

theorem fsGet_write_self (fs : FS) (p : String) (b : Bytes) :
    fsGet (fsWrite fs p b) p = some b := by
  simp [fsGet, fsWrite, List.find?]

theorem fsExists_of_write (fs : FS) (p q : String) (b : Bytes)
    (h : fsExists (fsWrite fs p b) q = true) :
    q = p ∨ fsExists fs q = true := by
  by_cases hq : q = p
  · exact .inl hq
  · right
    simp only [fsWrite, fsExists, List.any_cons, Bool.or_eq_true,
      decide_eq_true_eq] at h
    rcases h with h | h
    · exact absurd h.symm hq
    · exact fsExists_of_filter fs _ q h

theorem fsExists_remove_self (fs : FS) (p : String) :
    fsExists (fsRemove fs p) p = false := by
  simp only [fsRemove, fsExists, List.any_eq_false, List.mem_filter,
    decide_eq_true_eq]
  rintro e ⟨_, hne⟩
  simpa using hne

theorem fsExists_of_remove (fs : FS) (p q : String)
    (h : fsExists (fsRemove fs p) q = true) : fsExists fs q = true :=
  fsExists_of_filter fs _ q h


theorem readParts_nil (P n : Nat) : readParts P n [] = [] := by
  cases n <;> simp [readParts]

theorem readParts_cons (P n : Nat) (rest : Bytes) (hP : 0 < P)
    (hr : rest ≠ []) :
    readParts P (n + 1) rest = rest.take P :: readParts P n (rest.drop P) := by
  have ht : (rest.take P).isEmpty = false := by
    cases rest with
    | nil => exact absurd rfl hr
    | cons a t =>
        cases P with
        | zero => omega
        | succ k => simp [List.take]
  simp [readParts, ht]

theorem readParts_flatten (P : Nat) (hP : 0 < P) :
    ∀ (n : Nat) (rest : Bytes), rest.length ≤ n * P →
      (readParts P n rest).flatten = rest := by
  intro n
  induction n with
  | zero =>
      intro rest h
      have he : rest = [] := List.eq_nil_of_length_eq_zero (by omega)
      subst he
      rfl
  | succ n ih =>
      intro rest h
      by_cases hr : rest = []
      · subst hr; simp [readParts_nil]
      · rw [readParts_cons P n rest hP hr]
        have hd : (rest.drop P).length ≤ n * P := by
          rw [List.length_drop]
          have hs : (n + 1) * P = n * P + P := by ring
          omega
        simp only [List.flatten_cons, ih (rest.drop P) hd,
          List.take_append_drop]

theorem readParts_length (P : Nat) (hP : 0 < P) :
    ∀ (n : Nat) (rest : Bytes), rest.length ≤ n * P →
      (readParts P n rest).length = (rest.length + P - 1) / P := by
  intro n
  induction n with
  | zero =>
      intro rest h
      have he : rest = [] := List.eq_nil_of_length_eq_zero (by omega)
      subst he
      simp [readParts, Nat.div_eq_of_lt (by omega : P - 1 < P)]
  | succ n ih =>
      intro rest h
      by_cases hr : rest = []
      · subst hr
        simp [readParts_nil, Nat.div_eq_of_lt (by omega : P - 1 < P)]
      · have hlen : 1 ≤ rest.length := by
          cases rest with
          | nil => exact absurd rfl hr
          | cons a t => simp
        rw [readParts_cons P n rest hP hr]
        have hd : (rest.drop P).length ≤ n * P := by
          rw [List.length_drop]
          have hs : (n + 1) * P = n * P + P := by ring
          omega
        have e1 : rest.length + P - 1 = (rest.length - 1) + P := by omega
        rw [e1, Nat.add_div_right _ hP]
        simp only [List.length_cons, ih (rest.drop P) hd, List.length_drop]
        rcases Nat.lt_or_ge rest.length P with hlt | hge
        · have e2 : rest.length - P = 0 := by omega
          rw [e2]
          rw [Nat.div_eq_of_lt (by omega : 0 + P - 1 < P),
            Nat.div_eq_of_lt (by omega : rest.length - 1 < P)]
        · have e3 : rest.length - P + P - 1 = rest.length - 1 := by omega
          rw [e3]

theorem readParts_shape (P : Nat) (hP : 0 < P) :
    ∀ (n : Nat) (rest : Bytes), ∀ p ∈ readParts P n rest,
      p ≠ [] ∧ p.length ≤ P := by
  intro n
  induction n with
  | zero => intro rest p hp; simp [readParts] at hp
  | succ n ih =>
      intro rest p hp
      by_cases hr : rest = []
      · subst hr; simp [readParts_nil] at hp
      · rw [readParts_cons P n rest hP hr] at hp
        rcases List.mem_cons.mp hp with he | hm
        · subst he
          refine ⟨?_, by simp⟩
          intro hnil
          rcases (List.take_eq_nil_iff).mp hnil with h0 | h0
          · omega
          · exact hr h0
        · exact ih (rest.drop P) p hm

theorem readParts_getD (P : Nat) (hP : 0 < P) :
    ∀ (n : Nat) (rest : Bytes) (i : Nat),
      i + 1 < (readParts P n rest).length →
      ((readParts P n rest).getD i []).length = P := by
  intro n
  induction n with
  | zero => intro rest i hi; simp [readParts] at hi
  | succ n ih =>
      intro rest i hi
      by_cases hr : rest = []
      · subst hr; simp [readParts_nil] at hi
      · rw [readParts_cons P n rest hP hr] at hi ⊢
        cases i with
        | zero =>
            simp only [List.getD_cons_zero]
            simp only [List.length_cons] at hi
            have hrec : readParts P n (rest.drop P) ≠ [] := by
              intro hn
              rw [hn] at hi
              simp at hi
            have hdrop : rest.drop P ≠ [] := by
              intro hn
              exact hrec (by rw [hn]; exact readParts_nil P n)
            have hgt : P < rest.length := by
              by_contra hle
              exact hdrop (List.drop_eq_nil_of_le (by omega))
            simp [List.length_take]
            omega
        | succ i =>
            simp only [List.getD_cons_succ]
            simp only [List.length_cons] at hi
            exact ih (rest.drop P) i (by omega)


set_option linter.unusedVariables false in
/-- C4: for file size S > 0 and part size P > 0, the splitter produces
`total_parts = ceil(S/P)` parts by reading P-sized chunks; every part except
possibly the last has exactly P bytes, every part is nonempty and at most P
bytes, and concatenating the parts in index order reproduces the original
bytes. -/
theorem split_roundtrip (P : Nat) (data : Bytes) (hP : 0 < P)
    (hS : 0 < data.length) :
    (splitParts P data).length = total_parts data.length P ∧
    total_parts data.length P = (data.length + P - 1) / P ∧
    (∀ i, i + 1 < (splitParts P data).length →
      ((splitParts P data).getD i []).length = P) ∧
    (∀ p ∈ splitParts P data, p ≠ [] ∧ p.length ≤ P) ∧
    (splitParts P data).flatten = data := by
  have htp := total_parts_eq data.length P hP
  have hcov : data.length ≤ (total_parts data.length P) * P := by
    rw [htp]
    have hdm := Nat.div_add_mod (data.length + P - 1) P
    have hmod := Nat.mod_lt (data.length + P - 1) hP
    have hcomm : ((data.length + P - 1) / P) * P =
        P * ((data.length + P - 1) / P) := Nat.mul_comm _ _
    omega
  refine ⟨?_, htp, ?_, readParts_shape P hP _ data,
    readParts_flatten P hP _ data hcov⟩
  · exact (readParts_length P hP _ data hcov).trans htp.symm
  · exact fun i hi => readParts_getD P hP _ data i hi

set_option maxRecDepth 4000 in
/-- Witness for `split_roundtrip`: splitting 5 bytes at part size 2 gives
3 parts that concatenate back, and the spec scenario scaled to MB units:
120 split at 49 gives parts of sizes 49, 49, 22. -/
theorem split_roundtrip_witness :
    (splitParts 2 [0, 1, 2, 3, 4]).flatten = [0, 1, 2, 3, 4] ∧
    (splitParts 2 [0, 1, 2, 3, 4]).length = 3 ∧
    (splitParts 49 (List.replicate 120 0)).map List.length = [49, 49, 22] :=
  ⟨(split_roundtrip 2 [0, 1, 2, 3, 4] (by decide) (by decide)).2.2.2.2,
   by decide, by decide⟩

theorem updateStatusLoop_succ_true (n : Nat) (o : List Bool)
    (h : o.headD true = true) :
    updateStatusLoop (n + 1) o = (1, 0, true) := by
  simp only [updateStatusLoop, tryEdit, h, if_true]

theorem updateStatusLoop_succ_false (n : Nat) (o : List Bool)
    (h : o.headD true = false) :
    updateStatusLoop (n + 1) o =
      ((updateStatusLoop n o.tail).1 + 1, (updateStatusLoop n o.tail).2.1 + 1,
        (updateStatusLoop n o.tail).2.2) := by
  simp only [updateStatusLoop, tryEdit, h, Bool.false_eq_true, if_false]

theorem updateStatusLoop_spec (n : Nat) (o : List Bool) :
    (updateStatusLoop n o).1 ≤ n ∧
    (updateStatusLoop n o).2.1 +
      (if (updateStatusLoop n o).2.2 then 1 else 0) =
      (updateStatusLoop n o).1 := by
  induction n generalizing o with
  | zero => simp [updateStatusLoop]
  | succ n ih =>
      have h1 := (ih o.tail).1
      have h2 := (ih o.tail).2
      cases h : o.headD true
      · rw [updateStatusLoop_succ_false n o h]
        refine ⟨by omega, ?_⟩
        split at h2 <;> split <;> simp_all
      · rw [updateStatusLoop_succ_true n o h]
        simp

/-- C8: every status update is attempted at most 3 times; a 1-second sleep
follows each failed attempt (slept seconds + 1 = attempts when some attempt
succeeds, slept seconds = attempts when all fail); failing twice then
succeeding makes 3 attempts and succeeds; failing three times drops the
update with a normal return (the retry loop catches every exception, so a
failed update can never raise into — and thus never fail — the job). -/
theorem update_status_retry (outcomes rest : List Bool) :
    (update_status outcomes).1 ≤ 3 ∧
    (update_status outcomes).2.1 +
      (if (update_status outcomes).2.2 then 1 else 0) =
      (update_status outcomes).1 ∧
    update_status (false :: false :: true :: rest) = (3, 2, true) ∧
    update_status (false :: false :: false :: rest) = (3, 3, false) :=
  ⟨(updateStatusLoop_spec 3 outcomes).1, (updateStatusLoop_spec 3 outcomes).2,
   rfl, rfl⟩

/-- C9 (amended): the hook branches on the PRESENCE of `total_bytes`, not its
positivity.  When `total_bytes` is present and nonzero it reports the
percentage `downloaded_bytes / total_bytes * 100`; when absent it reports the
raw byte count in MB; when present and equal to zero the division raises
`ZeroDivisionError` and the event is only logged — no MB fallback occurs. -/
theorem progress_render_modes (q : String) (e : PEvent) (nm : String)
    (hst : e.status = "downloading") (hq : qualityName q = some nm) :
    (∀ t, e.total_bytes = some t → t ≠ 0 →
      progress_hook q e = .scheduled 0 (.percentMode
        ((e.downloaded_bytes : Rat) / (t : Rat) * 100) (e.speed.getD 0)
        e.eta nm)) ∧
    (e.total_bytes = none →
      progress_hook q e = .scheduled 0 (.mbMode
        ((e.downloaded_bytes : Rat) / 1024 / 1024) nm)) ∧
    (e.total_bytes = some 0 → progress_hook q e = .loggedError .divByZero) := by
  refine ⟨?_, ?_, ?_⟩
  · intro t ht hz
    simp [progress_hook, renderProgress, hst, hq, ht, hz]
  · intro ht
    simp [progress_hook, renderProgress, hst, hq, ht]
  · intro ht
    simp [progress_hook, renderProgress, hst, ht]

/-- Witness for `progress_render_modes` at a concrete event with a known
positive total. -/
theorem progress_render_modes_witness :
    progress_hook "auto" ⟨"downloading", 50, some 200, some 3, some 7, 0⟩ =
      .scheduled 0 (.percentMode ((50 : Rat) / (200 : Rat) * 100) 3 (some 7)
        "🔄 Best Quality (Recommended)") :=
  (progress_render_modes "auto" ⟨"downloading", 50, some 200, some 3, some 7, 0⟩
    "🔄 Best Quality (Recommended)" rfl rfl).1 200 rfl (by decide)

/-- C9 counterexample: an event whose `total_bytes` is present but zero is
known-and-not-positive, so the claim predicts the MB fallback report; the
code instead raises `ZeroDivisionError` inside the hook, logs it, and
produces no status update at all. -/
theorem progress_zero_total_counterexample :
    progress_hook "auto" ⟨"downloading", 5, some 0, none, none, 0⟩ =
      .loggedError .divByZero ∧
    progress_hook "auto" ⟨"downloading", 5, some 0, none, none, 0⟩ ≠
      .scheduled 0 (.mbMode ((5 : Rat) / 1024 / 1024)
        "🔄 Best Quality (Recommended)") := by
  exact ⟨rfl, by decide⟩

/-- C10: any exception raised while rendering the status text for a
downloading progress event (including the division by zero when the event
carries `total_bytes = 0`) is caught by the hook's `try/except` and becomes a
logged outcome; the hook returns normally and never propagates the error
into the fetch. -/
theorem hook_catches_exceptions (q : String) (e : PEvent) (err : HookErr)
    (hst : e.status = "downloading")
    (herr : renderProgress q e = .error err) :
    progress_hook q e = .loggedError err := by
  simp [progress_hook, hst, herr]

/-- Witness for `hook_catches_exceptions`: the division-by-zero event is
logged, not propagated. -/
theorem hook_catches_exceptions_witness :
    progress_hook "auto" ⟨"downloading", 7, some 0, none, none, 3⟩ =
      .loggedError .divByZero :=
  hook_catches_exceptions "auto" ⟨"downloading", 7, some 0, none, none, 3⟩
    .divByZero rfl rfl

/-- C6 counterexample: two downloading progress events arriving at the same
second (both carry timestamp 5, i.e. within any 1-second minimum interval)
each cause a scheduled Notifier status call — the hook schedules every event
with delay 0 and has no interval gate, so two calls occur where the claim
allows at most one. -/
theorem throttle_counterexample :
    ((hookRuns "auto"
        [⟨"downloading", 100, some 1000, none, none, 5⟩,
         ⟨"downloading", 200, some 1000, none, none, 5⟩]).filter
      isScheduled).length = 2 := by decide


/-- Whether an action is a terminal status notification (the single
completed/failed message a job emits). -/
def isTerminalStatus : Action → Bool
  | .statusUpdate .completedMsg => true
  | .statusUpdate (.failedMsg _) => true
  | _ => false

theorem splitSendLoop_empty (P : Nat) (d nm ex : String) (tot fuel idx : Nat)
    (rest : Bytes) (st : SplitState) (h : (rest.take P).isEmpty = true) :
    splitSendLoop P d nm ex tot (fuel + 1) idx rest st = (st, none) := by
  simp only [splitSendLoop, h, if_true]

theorem splitSendLoop_ok (P : Nat) (d nm ex : String) (tot fuel idx : Nat)
    (rest : Bytes) (st : SplitState)
    (h : (rest.take P).isEmpty = false) (hs : st.sends.headD true = true) :
    splitSendLoop P d nm ex tot (fuel + 1) idx rest st =
      splitSendLoop P d nm ex tot fuel (idx + 1) (rest.drop P)
        ⟨fsRemove (fsWrite st.fs
            (d ++ "/" ++ (nm ++ "_part" ++ toString (idx + 1) ++ "of" ++
              toString tot ++ ex)) (rest.take P))
          (d ++ "/" ++ (nm ++ "_part" ++ toString (idx + 1) ++ "of" ++
            toString tot ++ ex)),
         st.actions ++
          [Action.statusUpdate (.sendingPart (idx + 1) tot),
           Action.sendDocument (nm ++ "_part" ++ toString (idx + 1) ++ "of" ++
             toString tot ++ ex) (rest.take P) true] ++
          [Action.sleepSecond],
         st.sends.tail⟩ := by
  simp only [splitSendLoop, h, Bool.false_eq_true, if_false, hs, if_true]

theorem splitSendLoop_fail (P : Nat) (d nm ex : String) (tot fuel idx : Nat)
    (rest : Bytes) (st : SplitState)
    (h : (rest.take P).isEmpty = false) (hs : st.sends.headD true = false) :
    splitSendLoop P d nm ex tot (fuel + 1) idx rest st =
      (⟨fsWrite st.fs
          (d ++ "/" ++ (nm ++ "_part" ++ toString (idx + 1) ++ "of" ++
            toString tot ++ ex)) (rest.take P),
        st.actions ++
          [Action.statusUpdate (.sendingPart (idx + 1) tot),
           Action.sendDocument (nm ++ "_part" ++ toString (idx + 1) ++ "of" ++
             toString tot ++ ex) (rest.take P) false],
        st.sends.tail⟩, some .sendFailed) := by
  simp only [splitSendLoop, h, Bool.false_eq_true, if_false, hs, if_true]

theorem splitSendLoop_fs_subset (P : Nat) (d nm ex : String) (tot : Nat) :
    ∀ (fuel idx : Nat) (rest : Bytes) (st : SplitState),
      (splitSendLoop P d nm ex tot fuel idx rest st).2 = none →
      ∀ p, fsExists (splitSendLoop P d nm ex tot fuel idx rest st).1.fs p = true →
        fsExists st.fs p = true := by
  intro fuel
  induction fuel with
  | zero => intro idx rest st _ p hp; exact hp
  | succ fuel ih =>
      intro idx rest st hok p hp
      by_cases he : (rest.take P).isEmpty
      · rw [splitSendLoop_empty P d nm ex tot fuel idx rest st he] at hp
        exact hp
      · cases hs : st.sends.headD true
        · rw [splitSendLoop_fail P d nm ex tot fuel idx rest st
            (by simpa using he) hs] at hok
          simp at hok
        · rw [splitSendLoop_ok P d nm ex tot fuel idx rest st
            (by simpa using he) hs] at hok hp
          have hsub := ih (idx + 1) (rest.drop P) _ hok p hp
          simp only at hsub
          by_cases hq : p = d ++ "/" ++ (nm ++ "_part" ++ toString (idx + 1) ++
            "of" ++ toString tot ++ ex)
          · rw [hq] at hsub
            rw [fsExists_remove_self] at hsub
            exact absurd hsub (by simp)
          · have h2 := fsExists_of_remove _ _ _ hsub
            rcases fsExists_of_write _ _ _ _ h2 with h3 | h3
            · exact absurd h3 hq
            · exact h3

theorem splitSendLoop_filter_terminal (P : Nat) (d nm ex : String) (tot : Nat) :
    ∀ (fuel idx : Nat) (rest : Bytes) (st : SplitState),
      (splitSendLoop P d nm ex tot fuel idx rest st).1.actions.filter
        isTerminalStatus = st.actions.filter isTerminalStatus := by
  intro fuel
  induction fuel with
  | zero => intro idx rest st; rfl
  | succ fuel ih =>
      intro idx rest st
      by_cases he : (rest.take P).isEmpty
      · rw [splitSendLoop_empty P d nm ex tot fuel idx rest st he]
      · cases hs : st.sends.headD true
        · rw [splitSendLoop_fail P d nm ex tot fuel idx rest st
            (by simpa using he) hs]
          simp [List.filter_append, isTerminalStatus]
        · rw [splitSendLoop_ok P d nm ex tot fuel idx rest st
            (by simpa using he) hs]
          rw [ih]
          simp [List.filter_append, isTerminalStatus]

theorem preludeActions_benign (args : DlArgs) :
    ∀ a ∈ preludeActions args, isTerminalStatus a = false ∧ isSendDoc a = false := by
  intro a ha
  by_cases hc : args.fromCallback
  · simp [preludeActions, hc] at ha
    rcases ha with h | h <;> subst h <;> exact ⟨rfl, rfl⟩
  · simp [preludeActions, hc] at ha
    rcases ha with h | h | h <;> subst h <;> exact ⟨rfl, rfl⟩

theorem preludeActions_filter_terminal (args : DlArgs) :
    (preludeActions args).filter isTerminalStatus = [] := by
  rw [List.filter_eq_nil_iff]
  intro a ha
  simp [(preludeActions_benign args a ha).1]

theorem sendPhase_filter_terminal (maxBytes : Nat) (tempDir filePath : String)
    (args : DlArgs) (fs1 : FS) (data : Bytes) :
    (sendPhase maxBytes tempDir filePath args fs1 data).2.1.filter
      isTerminalStatus = [] := by
  unfold sendPhase
  by_cases h : maxBytes < data.length
  · simp only [h, if_true]
    unfold split_and_send
    cases hg : fsGet fs1 filePath
    · simp [isTerminalStatus]
    · simp only []
      rw [List.filter_cons_of_neg (by decide)]
      rw [splitSendLoop_filter_terminal]
      rfl
  · simp [h, isTerminalStatus]

theorem sendPhase_success_fs (maxBytes : Nat) (tempDir filePath : String)
    (args : DlArgs) (fs1 : FS) (data : Bytes)
    (h : (sendPhase maxBytes tempDir filePath args fs1 data).2.2 = none) :
    ∀ p, fsExists (sendPhase maxBytes tempDir filePath args fs1 data).1 p = true →
      fsExists fs1 p = true := by
  unfold sendPhase at h ⊢
  by_cases hlt : maxBytes < data.length
  · simp only [hlt, if_true] at h ⊢
    unfold split_and_send at h ⊢
    cases hg : fsGet fs1 filePath
    · rw [hg] at h
      simp at h
    · rw [hg] at h
      intro p hp
      exact splitSendLoop_fs_subset _ _ _ _ _ _ _ _ _ h p hp
  · simp only [hlt, if_false] at h ⊢
    intro p hp
    exact hp

theorem finishPhase_filter_terminal (filePath : String) (acts1 : List Action)
    (b : FS × List Action × Option DlError)
    (h1 : acts1.filter isTerminalStatus = [])
    (h2 : b.2.1.filter isTerminalStatus = []) :
    (finishPhase filePath acts1 b).2.1.filter isTerminalStatus =
      (if (finishPhase filePath acts1 b).2.2 = none
        then [Action.statusUpdate .completedMsg] else []) := by
  obtain ⟨bfs, bacts, berr⟩ := b
  simp only [] at h2
  cases berr
  · simp [finishPhase, List.filter_append, h1, h2, isTerminalStatus]
  · simp [finishPhase, List.filter_append, h1, h2]

theorem finishPhase_success (filePath : String) (acts1 : List Action)
    (b : FS × List Action × Option DlError)
    (h : (finishPhase filePath acts1 b).2.2 = none) :
    b.2.2 = none ∧
    (∀ p, fsExists (finishPhase filePath acts1 b).1 p = true →
      fsExists b.1 p = true ∧ p ≠ filePath) := by
  obtain ⟨bfs, bacts, berr⟩ := b
  cases berr
  · refine ⟨rfl, ?_⟩
    intro p hp
    simp only [finishPhase] at hp
    by_cases hex : fsExists bfs filePath = true
    · rw [if_pos hex] at hp
      refine ⟨fsExists_of_remove _ _ _ hp, ?_⟩
      intro hpe
      subst hpe
      rw [fsExists_remove_self] at hp
      simp at hp
    · rw [if_neg hex] at hp
      refine ⟨hp, ?_⟩
      intro hpe
      subst hpe
      exact hex hp
  · simp [finishPhase] at h


theorem downloadBody_eq_notfound (maxBytes : Nat)
    (tempDir filePath : String) (args : DlArgs) (fs : FS)
    (hg : fsGet (fetchedFS filePath args fs) filePath = none) :
    downloadBody maxBytes tempDir filePath args fs =
      (fetchedFS filePath args fs, preludeActions args,
       some .fileNotFound) := by
  simp only [downloadBody, hg]

theorem downloadBody_eq_empty (maxBytes : Nat)
    (tempDir filePath : String) (args : DlArgs) (fs : FS) (data : Bytes)
    (hg : fsGet (fetchedFS filePath args fs) filePath = some data)
    (h0 : data.length = 0) :
    downloadBody maxBytes tempDir filePath args fs =
      (fetchedFS filePath args fs, preludeActions args,
       some .emptyFile) := by
  simp only [downloadBody, hg]
  simp [h0]

theorem downloadBody_eq_send (maxBytes : Nat)
    (tempDir filePath : String) (args : DlArgs) (fs : FS) (data : Bytes)
    (hg : fsGet (fetchedFS filePath args fs) filePath = some data)
    (h0 : ¬data.length = 0) :
    downloadBody maxBytes tempDir filePath args fs =
      finishPhase filePath (preludeActions args)
        (sendPhase maxBytes tempDir filePath args
          (fetchedFS filePath args fs) data) := by
  simp only [downloadBody, hg]
  simp [h0]

theorem downloadBody_filter_terminal (maxBytes : Nat)
    (tempDir filePath : String) (args : DlArgs) (fs : FS) :
    (downloadBody maxBytes tempDir filePath args fs).2.1.filter
        isTerminalStatus =
      (if (downloadBody maxBytes tempDir filePath args fs).2.2 = none
        then [Action.statusUpdate .completedMsg] else []) := by
  cases hg : fsGet (fetchedFS filePath args fs) filePath
  · rw [downloadBody_eq_notfound maxBytes tempDir filePath args fs hg]
    simp [preludeActions_filter_terminal]
  · next data =>
      by_cases h0 : data.length = 0
      · rw [downloadBody_eq_empty maxBytes tempDir filePath args fs data hg h0]
        simp [preludeActions_filter_terminal]
      · rw [downloadBody_eq_send maxBytes tempDir filePath args fs data hg h0]
        exact finishPhase_filter_terminal filePath (preludeActions args) _
          (preludeActions_filter_terminal args)
          (sendPhase_filter_terminal maxBytes tempDir filePath args _ data)

theorem downloadBody_success_fs (maxBytes : Nat) (tempDir filePath : String)
    (args : DlArgs) (fs : FS)
    (h : (downloadBody maxBytes tempDir filePath args fs).2.2 = none) :
    ∀ p, fsExists (downloadBody maxBytes tempDir filePath args fs).1 p = true →
      fsExists fs p = true ∧ p ≠ filePath := by
  cases hg : fsGet (fetchedFS filePath args fs) filePath
  · rw [downloadBody_eq_notfound maxBytes tempDir filePath args fs hg] at h
    simp at h
  · next data =>
      by_cases h0 : data.length = 0
      · rw [downloadBody_eq_empty maxBytes tempDir filePath args fs data
          hg h0] at h
        simp at h
      · rw [downloadBody_eq_send maxBytes tempDir filePath args fs data
          hg h0] at h ⊢
        intro p hp
        obtain ⟨hin1, hnotp⟩ :=
          (finishPhase_success filePath (preludeActions args) _ h).2 p hp
        have hin2 := sendPhase_success_fs maxBytes tempDir filePath args
          (fetchedFS filePath args fs) data
          (finishPhase_success filePath (preludeActions args) _ h).1 p hin1
        refine ⟨?_, hnotp⟩
        unfold fetchedFS at hin2
        cases hf : args.fetched with
        | none => rw [hf] at hin2; exact hin2
        | some bb =>
            rw [hf] at hin2
            rcases fsExists_of_write _ _ _ _ hin2 with h3 | h3
            · exact absurd h3 hnotp
            · exact h3

theorem contains_eq_false_of_not_mem (l : List Nat) (a : Nat) (h : a ∉ l) :
    l.contains a = false := by
  induction l with
  | nil => rfl
  | cons x t ih =>
      simp only [List.contains_cons, Bool.or_eq_false_iff]
      constructor
      · simp only [beq_eq_false_iff_ne]
        intro he
        exact h (he ▸ List.mem_cons_self x t)
      · exact ih (fun hm => h (List.mem_cons_of_mem x hm))

theorem contains_eq_true_of_mem (l : List Nat) (a : Nat) (h : a ∈ l) :
    l.contains a = true := by
  induction l with
  | nil => simp at h
  | cons x t ih =>
      simp only [List.contains_cons, Bool.or_eq_true, beq_iff_eq]
      rcases List.mem_cons.mp h with he | hm
      · exact .inl he
      · exact .inr (ih hm)

theorem download_busy_eq (maxBytes : Nat) (tempDir filePath : String)
    (args : DlArgs) (downloads : List Nat) (fs : FS)
    (hc : downloads.contains args.userId = true) :
    download maxBytes tempDir filePath args downloads fs =
      ⟨downloads, fs, [Action.sendMessage .busyNotice], .busy⟩ := by
  simp only [download, hc, if_true]

theorem download_success_eq (maxBytes : Nat) (tempDir filePath : String)
    (args : DlArgs) (downloads : List Nat) (fs : FS)
    (hc : downloads.contains args.userId = false)
    (hb : (downloadBody maxBytes tempDir filePath args fs).2.2 = none) :
    download maxBytes tempDir filePath args downloads fs =
      ⟨downloads.filter (fun u => u ≠ args.userId),
       (downloadBody maxBytes tempDir filePath args fs).1,
       (downloadBody maxBytes tempDir filePath args fs).2.1,
       .completed⟩ := by
  simp only [download, hc, Bool.false_eq_true, if_false, hb]
  simp [List.contains_cons, List.filter_cons]

theorem download_failed_eq (maxBytes : Nat) (tempDir filePath : String)
    (args : DlArgs) (downloads : List Nat) (fs : FS) (e : DlError)
    (hc : downloads.contains args.userId = false)
    (hb : (downloadBody maxBytes tempDir filePath args fs).2.2 = some e) :
    download maxBytes tempDir filePath args downloads fs =
      ⟨downloads.filter (fun u => u ≠ args.userId),
       (downloadBody maxBytes tempDir filePath args fs).1,
       (downloadBody maxBytes tempDir filePath args fs).2.1 ++
         [Action.statusUpdate (.failedMsg e)],
       .failed e⟩ := by
  simp only [download, hc, Bool.false_eq_true, if_false, hb]
  simp [List.contains_cons, List.filter_cons]


theorem filter_ne_self (downloads : List Nat) (u0 : Nat)
    (h : u0 ∉ downloads) :
    downloads.filter (fun u => u ≠ u0) = downloads := by
  rw [List.filter_eq_self]
  intro a ha
  have hne : a ≠ u0 := fun he => h (he ▸ ha)
  simpa using hne

/-- C2: an admitted job releases its registry slot on every path: whatever
the body does (success or any raised error), the `finally` clause restores
the registry to its pre-admission state, so the requester key is absent
after the job terminates. -/
theorem registry_release_on_every_path (maxBytes : Nat)
    (tempDir filePath : String) (args : DlArgs) (downloads : List Nat)
    (fs : FS) (h : args.userId ∉ downloads) :
    (download maxBytes tempDir filePath args downloads fs).downloads =
      downloads ∧
    args.userId ∉
      (download maxBytes tempDir filePath args downloads fs).downloads := by
  have hc := contains_eq_false_of_not_mem downloads args.userId h
  have hfe := filter_ne_self downloads args.userId h
  cases hb : (downloadBody maxBytes tempDir filePath args fs).2.2
  · rw [download_success_eq maxBytes tempDir filePath args downloads fs hc hb]
    refine ⟨hfe, ?_⟩
    show args.userId ∉ downloads.filter (fun u => u ≠ args.userId)
    rw [hfe]
    exact h
  · next e =>
      rw [download_failed_eq maxBytes tempDir filePath args downloads fs e
        hc hb]
      refine ⟨hfe, ?_⟩
      show args.userId ∉ downloads.filter (fun u => u ≠ args.userId)
      rw [hfe]
      exact h

/-- Witness for `registry_release_on_every_path` at a concrete run. -/
theorem registry_release_witness :
    (download 49 "t" "d/f.mp4" ⟨7, "auto", true, some [1], [true]⟩ []
      []).downloads = [] ∧
    (7 : Nat) ∉ (download 49 "t" "d/f.mp4" ⟨7, "auto", true, some [1], [true]⟩
      [] []).downloads :=
  registry_release_on_every_path 49 "t" "d/f.mp4"
    ⟨7, "auto", true, some [1], [true]⟩ [] [] (by decide)

/-- C3: a second download request for a user with a live job reports busy
and does nothing else: the registry, the filesystem and the outcome are
untouched, the only action is the "already have an active download" message,
and no download work (no status updates, no sends) starts. -/
theorem admission_at_most_one (maxBytes : Nat) (tempDir filePath : String)
    (args : DlArgs) (downloads : List Nat) (fs : FS)
    (h : args.userId ∈ downloads) :
    download maxBytes tempDir filePath args downloads fs =
      ⟨downloads, fs, [Action.sendMessage .busyNotice], .busy⟩ :=
  download_busy_eq maxBytes tempDir filePath args downloads fs
    (contains_eq_true_of_mem downloads args.userId h)

/-- Witness for `admission_at_most_one`. -/
theorem admission_at_most_one_witness :
    download 49 "t" "d/f.mp4" ⟨7, "auto", true, some [1], [true]⟩ [7] [] =
      ⟨[7], [], [Action.sendMessage .busyNotice], .busy⟩ :=
  admission_at_most_one 49 "t" "d/f.mp4" ⟨7, "auto", true, some [1], [true]⟩
    [7] [] (by decide)

/-- C7: if after the fetch the expected file is missing, or present but
exactly empty, the job ends Failed with the corresponding explicit error
(the two errors are distinct), and no `send_document` call occurs. -/
theorem fetch_failure_modes (maxBytes : Nat) (tempDir filePath : String)
    (args : DlArgs) (downloads : List Nat) (fs : FS)
    (hadm : args.userId ∉ downloads)
    (hfresh : fsExists fs filePath = false) :
    (args.fetched = none →
      (download maxBytes tempDir filePath args downloads fs).outcome =
        .failed .fileNotFound ∧
      ∀ a ∈ (download maxBytes tempDir filePath args downloads fs).actions,
        isSendDoc a = false) ∧
    (args.fetched = some [] →
      (download maxBytes tempDir filePath args downloads fs).outcome =
        .failed .emptyFile ∧
      ∀ a ∈ (download maxBytes tempDir filePath args downloads fs).actions,
        isSendDoc a = false) ∧
    DlError.fileNotFound ≠ DlError.emptyFile := by
  have hc := contains_eq_false_of_not_mem downloads args.userId hadm
  refine ⟨?_, ?_, by decide⟩
  · intro hf
    have hg : fsGet (fetchedFS filePath args fs) filePath = none := by
      unfold fetchedFS
      rw [hf]
      exact fsGet_eq_none fs filePath hfresh
    have hbody := downloadBody_eq_notfound maxBytes tempDir filePath args fs hg
    have hb : (downloadBody maxBytes tempDir filePath args fs).2.2 =
        some DlError.fileNotFound := by rw [hbody]
    rw [download_failed_eq maxBytes tempDir filePath args downloads fs
      DlError.fileNotFound hc hb]
    refine ⟨rfl, ?_⟩
    intro a ha
    simp only [] at ha
    rw [hbody] at ha
    rcases List.mem_append.mp ha with hm | hm
    · exact (preludeActions_benign args a hm).2
    · simp only [List.mem_singleton] at hm
      subst hm
      rfl
  · intro hf
    have hg : fsGet (fetchedFS filePath args fs) filePath = some [] := by
      unfold fetchedFS
      rw [hf]
      exact fsGet_write_self fs filePath []
    have hbody := downloadBody_eq_empty maxBytes tempDir filePath args fs []
      hg rfl
    have hb : (downloadBody maxBytes tempDir filePath args fs).2.2 =
        some DlError.emptyFile := by rw [hbody]
    rw [download_failed_eq maxBytes tempDir filePath args downloads fs
      DlError.emptyFile hc hb]
    refine ⟨rfl, ?_⟩
    intro a ha
    simp only [] at ha
    rw [hbody] at ha
    rcases List.mem_append.mp ha with hm | hm
    · exact (preludeActions_benign args a hm).2
    · simp only [List.mem_singleton] at hm
      subst hm
      rfl

/-- Witness for `fetch_failure_modes`: yt-dlp reporting success without
creating the file makes the job fail with the file-not-found error and
send no document. -/
theorem fetch_failure_modes_witness :
    (download 49 "t" "d/f.mp4" ⟨7, "auto", true, none, [true]⟩ [] []).outcome =
      .failed .fileNotFound ∧
    ∀ a ∈ (download 49 "t" "d/f.mp4" ⟨7, "auto", true, none, [true]⟩ []
      []).actions, isSendDoc a = false :=
  (fetch_failure_modes 49 "t" "d/f.mp4" ⟨7, "auto", true, none, [true]⟩ [] []
    (by decide) (by decide)).1 rfl


/-- C1 (amended): files are cleaned up only on the success path.  After a
run that ends Completed, every file still on disk was already there before
the job and is not the artifact path — the fetched artifact and every part
file the job wrote have been deleted.  On failing exit paths this does NOT
hold: the artifact (and an in-flight part file) can remain on disk, see the
counterexample. -/
theorem cleanup_on_success (maxBytes : Nat) (tempDir filePath : String)
    (args : DlArgs) (downloads : List Nat) (fs : FS) (p : String)
    (hout : (download maxBytes tempDir filePath args downloads fs).outcome =
      .completed)
    (hp : fsExists (download maxBytes tempDir filePath args downloads fs).fs
      p = true) :
    fsExists fs p = true ∧ p ≠ filePath := by
  by_cases hc : downloads.contains args.userId = true
  · rw [download_busy_eq maxBytes tempDir filePath args downloads fs hc]
      at hout
    simp at hout
  · have hc2 : downloads.contains args.userId = false := by
      simpa using hc
    cases hb : (downloadBody maxBytes tempDir filePath args fs).2.2
    · rw [download_success_eq maxBytes tempDir filePath args downloads fs
        hc2 hb] at hp
      exact downloadBody_success_fs maxBytes tempDir filePath args fs hb p hp
    · next e =>
        rw [download_failed_eq maxBytes tempDir filePath args downloads fs e
          hc2 hb] at hout
        simp at hout

/-- Witness for `cleanup_on_success`: a successful run starting with an
unrelated pre-existing file ends Completed; the surviving file is the
pre-existing one and is not the artifact. -/
theorem cleanup_on_success_witness :
    fsExists [("keep", [9])] "keep" = true ∧ "keep" ≠ "d/f.mp4" :=
  cleanup_on_success 49 "t" "d/f.mp4"
    ⟨7, "auto", true, some [1], [true]⟩ []
    [("keep", [9])] "keep" (by decide) (by decide)

/-- C1 counterexample: a job that terminates in the Failed state (its single
`send_document` call raised) deletes nothing — the fetched artifact is still
on disk after the job reaches its terminal state, so deletion on every exit
path is false. -/
theorem cleanup_counterexample :
    (download 49 "t" "d/f.mp4" ⟨7, "auto", true, some [1], [false]⟩ []
      []).outcome = .failed .sendFailed ∧
    fsExists (download 49 "t" "d/f.mp4" ⟨7, "auto", true, some [1], [false]⟩
      [] []).fs "d/f.mp4" = true := by decide

/-- C5 (amended): the cancel callback only deletes the user's pending URL
selection and edits the message; it never modifies the active-download
registry and never signals a running download (the code has no cancellation
path into an active job), so a live job continues to its normal terminal
state. -/
theorem cancel_removes_only_pending (st : BotState) (userId : Nat) :
    (handle_callback_cancel st userId).1.downloads = st.downloads ∧
    (handle_callback_cancel st userId).1.pending_downloads =
      st.pending_downloads.filter (fun e => e.1 ≠ userId) ∧
    (handle_callback_cancel st userId).2 =
      [Action.editMessage .cancelledMsg] := by
  refine ⟨rfl, ?_, rfl⟩
  by_cases h : st.pending_downloads.any (fun e => e.1 = userId)
  · simp [handle_callback_cancel, h]
  · simp only [handle_callback_cancel, h, Bool.false_eq_true, if_false]
    symm
    rw [List.filter_eq_self]
    intro a ha
    simp only [List.any_eq_true, decide_eq_true_eq] at h
    push_neg at h
    simpa using h a ha

/-- C5 counterexample: user 7 has a live download (registry `[7]`); the
cancel callback leaves the registry untouched, and the running job — whose
inputs carry no cancellation signal because the code provides none — ends
Completed (not Cancelled) and does make a `send_document` call. -/
theorem cancel_counterexample :
    (handle_callback_cancel ⟨[(7, "u")], [7]⟩ 7).1.downloads = [7] ∧
    (download 49 "t" "d/g.mp4" ⟨7, "auto", true, some [2], [true]⟩ []
      []).outcome = .completed ∧
    (download 49 "t" "d/g.mp4" ⟨7, "auto", true, some [2], [true]⟩ []
      []).actions.any isSendDoc = true := by decide

/-- C6 (amended): the progress hook has no interval gate — every downloading
event whose rendering succeeds causes an immediately-scheduled (delay 0)
status call, however frequently events arrive; and each admitted job run
emits exactly one terminal status message (completed or failed). -/
theorem unthrottled_single_terminal (q : String) (e : PEvent) (r : Rendered)
    (maxBytes : Nat) (tempDir filePath : String) (args : DlArgs)
    (downloads : List Nat) (fs : FS)
    (hst : e.status = "downloading")
    (hr : renderProgress q e = .ok r)
    (hadm : args.userId ∉ downloads) :
    progress_hook q e = .scheduled 0 r ∧
    ((download maxBytes tempDir filePath args downloads fs).actions.filter
      isTerminalStatus).length = 1 := by
  refine ⟨by simp [progress_hook, hst, hr], ?_⟩
  have hc := contains_eq_false_of_not_mem downloads args.userId hadm
  have hfl := downloadBody_filter_terminal maxBytes tempDir filePath args fs
  cases hb : (downloadBody maxBytes tempDir filePath args fs).2.2
  · rw [download_success_eq maxBytes tempDir filePath args downloads fs
      hc hb]
    rw [hb] at hfl
    simp only [if_pos rfl] at hfl
    show ((downloadBody maxBytes tempDir filePath args fs).2.1.filter
      isTerminalStatus).length = 1
    rw [hfl]
    rfl
  · next er =>
      rw [download_failed_eq maxBytes tempDir filePath args downloads fs er
        hc hb]
      rw [hb] at hfl
      rw [if_neg (by simp)] at hfl
      show (((downloadBody maxBytes tempDir filePath args fs).2.1 ++
        [Action.statusUpdate (.failedMsg er)]).filter
          isTerminalStatus).length = 1
      rw [List.filter_append, hfl]
      rfl

/-- Witness for `unthrottled_single_terminal` at a concrete event and run. -/
theorem unthrottled_single_terminal_witness :
    progress_hook "auto" ⟨"downloading", 10, some 40, none, none, 0⟩ =
      .scheduled 0 (.percentMode (((10 : Nat) : Rat) / ((40 : Nat) : Rat) * 100)
        0 none "🔄 Best Quality (Recommended)") ∧
    ((download 49 "t" "d/f.mp4" ⟨7, "auto", true, some [1], [true]⟩ []
      []).actions.filter isTerminalStatus).length = 1 :=
  unthrottled_single_terminal "auto"
    ⟨"downloading", 10, some 40, none, none, 0⟩
    (.percentMode (((10 : Nat) : Rat) / ((40 : Nat) : Rat) * 100) 0 none
      "🔄 Best Quality (Recommended)")
    49 "t" "d/f.mp4" ⟨7, "auto", true, some [1], [true]⟩ [] [] rfl rfl
    (by decide)

end M3U8Bot
